import Mathlib

/-!
Verification of cudipy/segment/tissue.py (TissueClassifierHMRF).

Shallow embedding of the HMRF tissue-classification driver
`TissueClassifierHMRF.classify`.  Volumes are flattened to lists of
rationals; the collaborator objects (`ConstantObservationModel`,
`IteratedConditionalModes`, `add_noise`), whose code lives outside this
repository's source tree, are abstracted as a structure of functions so that
every theorem about the driver quantifies over their behaviour.  Energy maps
may contain `-inf` entries, modelled by an explicit sum type.
-/

namespace Cudipy

/-- A flattened 3D volume of real-valued intensities. -/
abbrev Vol := List ℚ

/-- A flattened 3D integer-label segmentation. -/
abbrev Seg := List ℤ

/-- A per-voxel, per-class negative log-likelihood array (voxel-major). -/
abbrev NegLL := List (List ℚ)

/-- A per-voxel, per-class neighbourhood prior array (voxel-major). -/
abbrev PLNmap := List (List ℚ)

/-- A posterior / partial-volume map, stored channel-major: entry `k` is the
volume of class-`k` probabilities, so `PVE[..., 1:]` is `List.drop 1`. -/
abbrev PVEmap := List Vol

/-- One entry of an ICM energy map: either `-inf` (structurally excluded
voxel) or a finite value. -/
inductive EnergyVal
  | negInf
  | fin (q : ℚ)
deriving DecidableEq, Repr

/-- Whether `e > -inf` holds, as evaluated by the numpy mask `energy > -xp.inf`. -/
def EnergyVal.isFinite : EnergyVal → Bool
  | .negInf => false
  | .fin _ => true

/-- The numeric value of a finite energy entry (`0` for `-inf`, which is
always filtered out before this is applied). -/
def EnergyVal.val : EnergyVal → ℚ
  | .negInf => 0
  | .fin q => q

/-- The sum of the finite entries of an energy map,
`energy[energy > -xp.inf].sum()` (tissue.py line 120 / 126). -/
def finiteSum (l : List EnergyVal) : ℚ :=
  ((l.filter EnergyVal.isFinite).map EnergyVal.val).sum

/-- The reduction `np.amax` on a nonempty flattened array (the empty case, on
which numpy raises, is given an arbitrary value and is never reached on the
paths the driver takes). -/
def amax : List ℚ → ℚ
  | [] => 0
  | x :: xs => xs.foldl max x

/-- The reduction `np.amin`, same conventions as `amax`. -/
def amin : List ℚ → ℚ
  | [] => 0
  | x :: xs => xs.foldl min x

/-- Normalisation of a Python slice endpoint: negative indices count from the
end, and endpoints are clamped to `[0, n]`. -/
def pyIdx (n : ℕ) (a : ℤ) : ℕ :=
  if a < 0 then ((n : ℤ) + a).toNat else min a.toNat n

/-- Python list slice `l[a : b]` (step 1). -/
def pySlice (l : List ℚ) (a b : ℤ) : List ℚ :=
  (l.take (pyIdx l.length b)).drop (pyIdx l.length a)

/-- Comparison of `(mu, sigma)` pairs by the `mu` component; the order used
to realise `np.argsort(mu)` applied simultaneously to `mu` and `sigma`. -/
def muLe (a b : ℚ × ℚ) : Prop := a.1 ≤ b.1

instance : DecidableRel muLe := fun a b => inferInstanceAs (Decidable (a.1 ≤ b.1))

instance : IsTotal (ℚ × ℚ) muLe := ⟨fun a b => le_total a.1 b.1⟩

instance : IsTrans (ℚ × ℚ) muLe := ⟨fun _ _ _ h1 h2 => le_trans h1 h2⟩

/-- Simultaneous sort, `p = argsort(mu); (mu[p], s[p])`: sort `mu` ascending and permute `s`
by the identical permutation (tissue.py lines 75–77 and 111–113).  A stable
sort is one deterministic realisation of `np.argsort` (ties are ordered by
position). -/
def sortPair (mu s : List ℚ) : Vol × Vol :=
  let ps := (mu.zip s).insertionSort muLe
  (ps.map Prod.fst, ps.map Prod.snd)

/-- The collaborator functions used by the driver.  Their implementations
(`cudipy/segment/mrf.py`, `cudipy/sims/voxel.py`) are not part of this
repository's source tree; the driver is verified for every behaviour of
these functions. -/
structure Collab where
  initialize_param_uniform : Vol → ℤ → Vol × Vol
  negloglikelihood : Vol → Vol → Vol → ℤ → NegLL
  initialize_maximum_likelihood : NegLL → Seg
  seg_stats : Vol → Seg → ℤ → Vol × Vol
  add_noise : Vol → ℕ → ℕ → String → Vol
  prob_neighborhood : Seg → ℚ → ℤ → PLNmap
  prob_image : Vol → ℤ → Vol → Vol → PLNmap → PVEmap
  update_param : Vol → PVEmap → Vol → ℤ → Vol × Vol
  icm_ising : NegLL → ℚ → Seg → Seg × List EnergyVal

/-- The `TissueClassifierHMRF` object state: constructor flags plus the four
history lists populated by `classify` when `save_history` is set. -/
structure HMRF where
  save_history : Bool
  verbose : Bool
  segmentations : List Seg
  pves : List PVEmap
  energies : List (List EnergyVal)
  energies_sum : List ℚ

/-- The constructor `TissueClassifierHMRF.__init__`: the history lists start empty. -/
def HMRF.init (sh v : Bool) : HMRF :=
  { save_history := sh, verbose := v,
    segmentations := [], pves := [], energies := [], energies_sum := [] }

/-- The mutable state of the `for i in range(max_iter)` loop.  The fields
`iters`, `muUses` and `energyTrace` are ghost instrumentation: they record,
without influencing control flow, the number of executed loop bodies, the
`(mu, sigmasq)` pair passed to each likelihood/posterior collaborator call,
and each iteration's energy map. -/
structure LoopState where
  seg_init : Seg
  mu : Vol
  sigmasq : Vol
  final_segmentation : Seg
  energy_sum : List ℚ
  pve : Option PVEmap
  newSegs : List Seg
  newPves : List PVEmap
  newEnergies : List (List EnergyVal)
  newEnergiesSum : List ℚ
  iters : ℕ
  muUses : List (Vol × Vol)
  energyTrace : List (List EnergyVal)

/-- The neighbourhood prior `PLN = icm.prob_neighborhood(seg_init, beta, nclasses)`
(tissue.py line 106). -/
def bodyPln (c : Collab) (n : ℤ) (beta : ℚ) (s : LoopState) : PLNmap :=
  c.prob_neighborhood s.seg_init beta n

/-- The posterior `PVE = com.prob_image(image_gauss, nclasses, mu, sigmasq, PLN)`
(tissue.py line 107). -/
def bodyPve (c : Collab) (n : ℤ) (beta : ℚ) (image_gauss : Vol)
    (s : LoopState) : PVEmap :=
  c.prob_image image_gauss n s.mu s.sigmasq (bodyPln c n beta s)

/-- Lines 109–113: `mu_upd, sigmasq_upd = com.update_param(...)` followed by
the simultaneous `argsort(mu_upd)` permutation of both arrays. -/
def bodyUpdS (c : Collab) (n : ℤ) (beta : ℚ) (image_gauss : Vol)
    (s : LoopState) : Vol × Vol :=
  sortPair (c.update_param image_gauss (bodyPve c n beta image_gauss s) s.mu n).1
    (c.update_param image_gauss (bodyPve c n beta image_gauss s) s.mu n).2

/-- Lines 115–117: the in-loop likelihood and the ICM sweep,
`final_segmentation, energy = icm.icm_ising(negll, beta, seg_init)`. -/
def bodyIcm (c : Collab) (n : ℤ) (beta : ℚ) (image_gauss : Vol)
    (s : LoopState) : Seg × List EnergyVal :=
  c.icm_ising
    (c.negloglikelihood image_gauss (bodyUpdS c n beta image_gauss s).1
      (bodyUpdS c n beta image_gauss s).2 n)
    beta s.seg_init

/-- One body of the classification loop (tissue.py lines 106–126), up to but
not including the convergence check: the ICM/EM computations, the
`energy_sum` append (guarded by `allow_break`) and the history appends
(guarded by `save_history`).  Returns the updated state together with the
sorted `(mu_upd, sigmasq_upd)` pair handed to the next iteration. -/
def loopBody (c : Collab) (n : ℤ) (beta : ℚ) (image_gauss : Vol)
    (allow save : Bool) (s : LoopState) : LoopState × (Vol × Vol) :=
  ({ s with
      final_segmentation := (bodyIcm c n beta image_gauss s).1
      pve := some (bodyPve c n beta image_gauss s)
      energy_sum :=
        if allow then s.energy_sum ++ [finiteSum (bodyIcm c n beta image_gauss s).2]
        else s.energy_sum
      newSegs :=
        if save then s.newSegs ++ [(bodyIcm c n beta image_gauss s).1] else s.newSegs
      newPves :=
        if save then s.newPves ++ [bodyPve c n beta image_gauss s] else s.newPves
      newEnergies :=
        if save then s.newEnergies ++ [(bodyIcm c n beta image_gauss s).2]
        else s.newEnergies
      newEnergiesSum :=
        if save then s.newEnergiesSum ++ [finiteSum (bodyIcm c n beta image_gauss s).2]
        else s.newEnergiesSum
      iters := s.iters + 1
      muUses := s.muUses ++
        [(s.mu, s.sigmasq),
         ((bodyUpdS c n beta image_gauss s).1, (bodyUpdS c n beta image_gauss s).2)]
      energyTrace := s.energyTrace ++ [(bodyIcm c n beta image_gauss s).2] },
   bodyUpdS c n beta image_gauss s)

/-- The convergence check at the end of a loop body (tissue.py lines
128–138): evaluated only when `allow_break and (i % 10 == 0 and i != 0)`;
`tol` spans the whole history, the window is
`energy_sum[np.size(energy_sum) - 5 : i]`, and the loop breaks when
`|max(window) - min(window)| < tol`. -/
def breakAfter (allow : Bool) (tolerance : ℚ) (i : ℕ) (energy_sum : List ℚ) : Bool :=
  if allow && ((i % 10 == 0) && (i != 0)) then
    let tol := tolerance * (amax energy_sum - amin energy_sum)
    let window := pySlice energy_sum ((energy_sum.length : ℤ) - 5) (i : ℤ)
    decide (|amax window - amin window| < tol)
  else false

/-- The end-of-iteration handoff (tissue.py lines 140–142):
`seg_init = final_segmentation.copy(); mu = mu_upd.copy();
sigmasq = sigmasq_upd.copy()`.  Executed only when the loop does not
break. -/
def handoff (bs : LoopState × (Vol × Vol)) : LoopState :=
  { bs.1 with
      seg_init := bs.1.final_segmentation
      mu := bs.2.1
      sigmasq := bs.2.2 }

/-- The loop `for i in range(max_iter)`: run `fuel` remaining iterations
starting at index `i`, stopping early when the convergence check fires. -/
def runFrom (c : Collab) (n : ℤ) (beta : ℚ) (image_gauss : Vol)
    (allow save : Bool) (tolerance : ℚ) : ℕ → ℕ → LoopState → LoopState
  | 0, _, s => s
  | fuel + 1, i, s =>
    let bs := loopBody c n beta image_gauss allow save s
    if breakAfter allow tolerance i bs.1.energy_sum then bs.1
    else runFrom c n beta image_gauss allow save tolerance fuel (i + 1) (handoff bs)

/-- The flag `allow_break = not (max_iter is not None and tolerance is None)`
(tissue.py line 93). -/
def allow_break (tolerance : Option ℚ) (max_iter : Option ℤ) : Bool :=
  !(max_iter.isSome && tolerance.isNone)

/-- The iteration budget after defaulting: `max_iter = 100` when absent
(tissue.py lines 95–96). -/
def effMaxIter (max_iter : Option ℤ) : ℤ := max_iter.getD 100

/-- The tolerance after defaulting: `tolerance = 1e-05` when absent
(tissue.py lines 98–99). -/
def effTolerance (tolerance : Option ℚ) : ℚ := tolerance.getD (1 / 100000)

/-- Preprocessing (tissue.py lines 69–72): when the volume's maximum exceeds
1, shift by the minimum and then divide by the maximum of the shifted
volume. -/
def rescaled (image : Vol) : Vol :=
  if 1 < amax image then
    let im2 := image.map (fun x => x - amin image)
    im2.map (fun x => x / amax im2)
  else image

/-- The constant volume `zero = xp.zeros_like(image) + 0.001` (tissue.py line 86). -/
def zerosPlus (image : Vol) : Vol := image.map (fun _ => (0 : ℚ) + 1 / 1000)

/-- The noise volume `zero_noise = add_noise(zero, 10000, 1, noise_type="gaussian")`
(tissue.py line 87). -/
def noiseOf (c : Collab) (image : Vol) : Vol :=
  c.add_noise (zerosPlus image) 10000 1 "gaussian"

/-- The substituted volume `image_gauss = xp.where(image == 0, zero_noise, image)`
(tissue.py line 88). -/
def imageGaussOf (c : Collab) (image : Vol) : Vol :=
  ((image.zip (noiseOf c image)).map (fun xz => if xz.1 = 0 then xz.2 else xz.1))

/-- Lines 74–77: `mu, sigma = com.initialize_param_uniform(image, nclasses)`
followed by the simultaneous `argsort(mu)` permutation of `mu` and
`sigma`. -/
def initParams (c : Collab) (image : Vol) (n : ℤ) : Vol × Vol :=
  let ms := c.initialize_param_uniform image n
  sortPair ms.1 ms.2

/-- Line 78: `sigmasq = sigma ** 2`. -/
def initSigmasq (c : Collab) (image : Vol) (n : ℤ) : Vol :=
  (initParams c image n).2.map (fun s => s ^ 2)

/-- Lines 80–81: the pre-loop pure maximum-likelihood segmentation
`seg_init = icm.initialize_maximum_likelihood(com.negloglikelihood(...))`. -/
def initialSeg (c : Collab) (image : Vol) (n : ℤ) : Seg :=
  c.initialize_maximum_likelihood
    (c.negloglikelihood image (initParams c image n).1 (initSigmasq c image n) n)

/-- Lines 83–84: `mu, sigma = com.seg_stats(image, seg_init, nclasses)` —
note that the driver applies no sort to this pair. -/
def statsPair (c : Collab) (image : Vol) (n : ℤ) : Vol × Vol :=
  c.seg_stats image (initialSeg c image n) n

/-- The loop state as it stands at line 101, just before the first
iteration. -/
def startState (c : Collab) (image : Vol) (n : ℤ) : LoopState :=
  { seg_init := initialSeg c image n
    mu := (statsPair c image n).1
    sigmasq := (statsPair c image n).2.map (fun s => s ^ 2)
    final_segmentation := []
    energy_sum := [1 / 100000]
    pve := none
    newSegs := []
    newPves := []
    newEnergies := []
    newEnergiesSum := []
    iters := 0
    muUses := [((initParams c image n).1, initSigmasq c image n)]
    energyTrace := [] }

/-- The value returned by `classify` (`none` models the Python
`UnboundLocalError` raised at line 144 when the loop body never ran and
`PVE` is unbound), together with the object state after the call and the
final loop state. -/
structure ClassifyOut where
  ok : Option (Seg × Seg × PVEmap)
  obj : HMRF
  loopState : LoopState

/-- The driver `TissueClassifierHMRF.classify(image, nclasses, beta,
tolerance, max_iter)` (tissue.py lines 26–146).  The in-place appends to the object's
history lists are modelled by accumulating this call's entries in the loop
state and concatenating them onto the object lists at the end, which yields
the same final object state. -/
def classify (c : Collab) (self : HMRF) (image : Vol) (nclasses : ℤ) (beta : ℚ)
    (tolerance : Option ℚ) (max_iter : Option ℤ) : ClassifyOut :=
  let n := nclasses + 1
  let img := rescaled image
  let image_gauss := imageGaussOf c img
  let ab := allow_break tolerance max_iter
  let sf := runFrom c n beta image_gauss ab self.save_history
    (effTolerance tolerance) (effMaxIter max_iter).toNat 0 (startState c img n)
  { ok :=
      match sf.pve with
      | none => none
      | some p => some (initialSeg c img n, sf.final_segmentation, p.drop 1)
    obj :=
      { self with
          segmentations := self.segmentations ++ sf.newSegs
          pves := self.pves ++ sf.newPves
          energies := self.energies ++ sf.newEnergies
          energies_sum := self.energies_sum ++ sf.newEnergiesSum }
    loopState := sf }

/-- Index of the first minimal element of a list (helper for the argmin of a
per-voxel likelihood row, numpy `argmin` tie convention). -/
def argminIdxAux : List ℚ → ℕ → ℕ → ℚ → ℕ
  | [], _, bi, _ => bi
  | x :: xs, i, bi, bv =>
    if x < bv then argminIdxAux xs (i + 1) i x else argminIdxAux xs (i + 1) bi bv

/-- Index of the first minimal element of a list. -/
def argminIdx : List ℚ → ℕ
  | [] => 0
  | x :: xs => argminIdxAux xs 1 0 x

/-- Modelled from the spec: `initialLabel(negLogLikelihood)` of the ICM
engine (absent from the source tree) — per voxel, pick the argmin over
classes of the negative log-likelihood, ties broken by lowest class
index. -/
def argminSeg (nll : NegLL) : Seg := nll.map (fun row => (argminIdx row : ℤ))

/-- Modelled from the spec: the mean component of
`statsFromLabels(volume, segmentation, K)` of the observation model (absent
from the source tree) — for each class `k`, the mean of the voxel
intensities whose label equals `k`. -/
def segStatsMeans (volume : Vol) (seg : Seg) (n : ℤ) : Vol :=
  (List.range n.toNat).map (fun k =>
    let vals := ((volume.zip seg).filter (fun p => p.2 == (k : ℤ))).map Prod.fst
    if vals.length = 0 then 0 else vals.sum / (vals.length : ℚ))

/-- A concrete negative-log-likelihood table for the three-voxel volume
`[0, 9/10, 2/5]` under a two-class Gaussian model with means `[1/10, 2/5]`
and standard deviations `[1/2, 1/100]`: the wide class 0 wins at the
extreme intensities `0` and `9/10`, the narrow class 1 wins at `2/5`
(only the per-row argmin of this table is consumed). -/
def tableNegll : NegLL := [[0, 1], [0, 1], [1, 0]]

/-- A collaborator instance describing a two-class Gaussian observation
model with unequal class variances: `seg_stats` is the spec-modelled
per-class mean, `initialize_maximum_likelihood` the spec-modelled per-voxel
argmin, and the likelihood table is `tableNegll`.  The std component of
`seg_stats` (irrational in general, and entering the driver only through
its square) is set to zero; it plays no role in the mean-ordering
behaviour exercised here. -/
def gaussCollab : Collab :=
  { initialize_param_uniform := fun _ _ => ([1/10, 2/5], [1/2, 1/100])
    negloglikelihood := fun _ _ _ _ => tableNegll
    initialize_maximum_likelihood := argminSeg
    seg_stats := fun v s n => (segStatsMeans v s n, List.replicate n.toNat 0)
    add_noise := fun v _ _ _ => v
    prob_neighborhood := fun _ _ _ => []
    prob_image := fun _ m _ _ _ => List.replicate m.toNat []
    update_param := fun _ _ mu _ => (mu, mu)
    icm_ising := fun _ _ s => (s, [EnergyVal.fin 1]) }

/-- The preprocessing formula exactly as the specification words it:
"rescale to `[0,1]` via `(x - min) / max`". -/
def specRescale (image : Vol) : Vol :=
  if 1 < amax image then image.map (fun x => (x - amin image) / amax image)
  else image

/-- The convergence test exactly as the claim words it: `tol` spans the
entire history, the window is the positional slice
`history[len(history) - 5 : i]`, and the loop stops iff
`|max(window) - min(window)| < tol`. -/
def specConvergenceBreak (tolerance : ℚ) (i : ℕ) (history : List ℚ) : Bool :=
  let tol := tolerance * (amax history - amin history)
  let window := (history.take i).drop (history.length - 5)
  decide (|amax window - amin window| < tol)

/-- A concrete collaborator instance used to evaluate the driver on closed
inputs. -/
def trivCollab : Collab :=
  { initialize_param_uniform := fun _ _ => ([0], [0])
    negloglikelihood := fun _ _ _ _ => []
    initialize_maximum_likelihood := fun _ => []
    seg_stats := fun _ _ _ => ([0], [0])
    add_noise := fun v _ _ _ => v
    prob_neighborhood := fun _ _ _ => []
    prob_image := fun _ m _ _ _ => List.replicate m.toNat []
    update_param := fun _ _ mu _ => (mu, mu)
    icm_ising := fun _ _ s => (s, [EnergyVal.fin 1]) }

/-! ## Helper lemmas about the loop -/

theorem loopBody_pve (c : Collab) (n : ℤ) (beta : ℚ) (g : Vol) (ab sv : Bool)
    (s : LoopState) :
    (loopBody c n beta g ab sv s).1.pve = some (bodyPve c n beta g s) := rfl

theorem loopBody_iters (c : Collab) (n : ℤ) (beta : ℚ) (g : Vol) (ab sv : Bool)
    (s : LoopState) :
    (loopBody c n beta g ab sv s).1.iters = s.iters + 1 := rfl

theorem loopBody_energy_sum (c : Collab) (n : ℤ) (beta : ℚ) (g : Vol)
    (ab sv : Bool) (s : LoopState) :
    (loopBody c n beta g ab sv s).1.energy_sum =
      if ab then s.energy_sum ++ [finiteSum (bodyIcm c n beta g s).2]
      else s.energy_sum := rfl

theorem loopBody_energyTrace (c : Collab) (n : ℤ) (beta : ℚ) (g : Vol)
    (ab sv : Bool) (s : LoopState) :
    (loopBody c n beta g ab sv s).1.energyTrace =
      s.energyTrace ++ [(bodyIcm c n beta g s).2] := rfl

theorem loopBody_muUses (c : Collab) (n : ℤ) (beta : ℚ) (g : Vol) (ab sv : Bool)
    (s : LoopState) :
    (loopBody c n beta g ab sv s).1.muUses =
      s.muUses ++
        [(s.mu, s.sigmasq),
         ((bodyUpdS c n beta g s).1, (bodyUpdS c n beta g s).2)] := rfl

theorem loopBody_newSegs (c : Collab) (n : ℤ) (beta : ℚ) (g : Vol) (ab sv : Bool)
    (s : LoopState) :
    (loopBody c n beta g ab sv s).1.newSegs =
      if sv then s.newSegs ++ [(bodyIcm c n beta g s).1] else s.newSegs := rfl

theorem loopBody_newPves (c : Collab) (n : ℤ) (beta : ℚ) (g : Vol) (ab sv : Bool)
    (s : LoopState) :
    (loopBody c n beta g ab sv s).1.newPves =
      if sv then s.newPves ++ [bodyPve c n beta g s] else s.newPves := rfl

theorem loopBody_newEnergies (c : Collab) (n : ℤ) (beta : ℚ) (g : Vol)
    (ab sv : Bool) (s : LoopState) :
    (loopBody c n beta g ab sv s).1.newEnergies =
      if sv then s.newEnergies ++ [(bodyIcm c n beta g s).2]
      else s.newEnergies := rfl

theorem loopBody_newEnergiesSum (c : Collab) (n : ℤ) (beta : ℚ) (g : Vol)
    (ab sv : Bool) (s : LoopState) :
    (loopBody c n beta g ab sv s).1.newEnergiesSum =
      if sv then s.newEnergiesSum ++ [finiteSum (bodyIcm c n beta g s).2]
      else s.newEnergiesSum := rfl

theorem loopBody_snd (c : Collab) (n : ℤ) (beta : ℚ) (g : Vol) (ab sv : Bool)
    (s : LoopState) :
    (loopBody c n beta g ab sv s).2 = bodyUpdS c n beta g s := rfl

theorem handoff_pve (bs : LoopState × (Vol × Vol)) :
    (handoff bs).pve = bs.1.pve := rfl

theorem handoff_iters (bs : LoopState × (Vol × Vol)) :
    (handoff bs).iters = bs.1.iters := rfl

theorem handoff_energy_sum (bs : LoopState × (Vol × Vol)) :
    (handoff bs).energy_sum = bs.1.energy_sum := rfl

theorem handoff_energyTrace (bs : LoopState × (Vol × Vol)) :
    (handoff bs).energyTrace = bs.1.energyTrace := rfl

theorem handoff_muUses (bs : LoopState × (Vol × Vol)) :
    (handoff bs).muUses = bs.1.muUses := rfl

theorem handoff_mu (bs : LoopState × (Vol × Vol)) :
    (handoff bs).mu = bs.2.1 := rfl

theorem handoff_newSegs (bs : LoopState × (Vol × Vol)) :
    (handoff bs).newSegs = bs.1.newSegs := rfl

theorem handoff_newPves (bs : LoopState × (Vol × Vol)) :
    (handoff bs).newPves = bs.1.newPves := rfl

theorem handoff_newEnergies (bs : LoopState × (Vol × Vol)) :
    (handoff bs).newEnergies = bs.1.newEnergies := rfl

theorem handoff_newEnergiesSum (bs : LoopState × (Vol × Vol)) :
    (handoff bs).newEnergiesSum = bs.1.newEnergiesSum := rfl

theorem runFrom_zero (c : Collab) (n : ℤ) (beta : ℚ) (g : Vol) (ab sv : Bool)
    (tol : ℚ) (i : ℕ) (s : LoopState) :
    runFrom c n beta g ab sv tol 0 i s = s := rfl

theorem runFrom_succ (c : Collab) (n : ℤ) (beta : ℚ) (g : Vol) (ab sv : Bool)
    (tol : ℚ) (fuel i : ℕ) (s : LoopState) :
    runFrom c n beta g ab sv tol (fuel + 1) i s =
      if breakAfter ab tol i (loopBody c n beta g ab sv s).1.energy_sum then
        (loopBody c n beta g ab sv s).1
      else
        runFrom c n beta g ab sv tol fuel (i + 1)
          (handoff (loopBody c n beta g ab sv s)) := rfl

theorem breakAfter_false (tol : ℚ) (i : ℕ) (es : List ℚ) :
    breakAfter false tol i es = false := by
  simp [breakAfter]

theorem breakAfter_of_lt10 (ab : Bool) (tol : ℚ) (i : ℕ) (h : i < 10)
    (es : List ℚ) : breakAfter ab tol i es = false := by
  unfold breakAfter
  rcases Nat.eq_zero_or_pos i with h0 | h0
  · subst h0; simp
  · have hm : i % 10 = i := Nat.mod_eq_of_lt h
    have : (i % 10 == 0) = false := by
      simp [hm]
      omega
    simp [this]

theorem runFrom_iters_false (c : Collab) (n : ℤ) (beta : ℚ) (g : Vol)
    (sv : Bool) (tol : ℚ) :
    ∀ fuel i s, (runFrom c n beta g false sv tol fuel i s).iters = s.iters + fuel := by
  intro fuel
  induction fuel with
  | zero => intro i s; simp [runFrom_zero]
  | succ k ih =>
    intro i s
    rw [runFrom_succ, breakAfter_false]
    simp only [Bool.false_eq_true, if_false, ih]
    rw [handoff_iters, loopBody_iters]
    omega

theorem runFrom_iters_le10 (c : Collab) (n : ℤ) (beta : ℚ) (g : Vol)
    (ab sv : Bool) (tol : ℚ) :
    ∀ fuel i s, i + fuel ≤ 10 →
      (runFrom c n beta g ab sv tol fuel i s).iters = s.iters + fuel := by
  intro fuel
  induction fuel with
  | zero => intro i s _; simp [runFrom_zero]
  | succ k ih =>
    intro i s h
    rw [runFrom_succ, breakAfter_of_lt10 ab tol i (by omega)]
    simp only [Bool.false_eq_true, if_false]
    rw [ih (i + 1) _ (by omega), handoff_iters, loopBody_iters]
    omega

theorem runFrom_pve_succ (c : Collab) (n : ℤ) (beta : ℚ) (g : Vol)
    (ab sv : Bool) (tol : ℚ) :
    ∀ fuel i s, (runFrom c n beta g ab sv tol (fuel + 1) i s).pve.isSome = true := by
  intro fuel
  induction fuel with
  | zero =>
    intro i s
    rw [runFrom_succ]
    by_cases hb : breakAfter ab tol i (loopBody c n beta g ab sv s).1.energy_sum
    · simp only [hb, if_true]
      rw [loopBody_pve]
      rfl
    · simp only [hb, Bool.false_eq_true, if_false]
      rw [runFrom_zero, handoff_pve, loopBody_pve]
      rfl
  | succ k ih =>
    intro i s
    rw [runFrom_succ]
    by_cases hb : breakAfter ab tol i (loopBody c n beta g ab sv s).1.energy_sum
    · simp only [hb, if_true]
      rw [loopBody_pve]
      rfl
    · simp only [hb, Bool.false_eq_true, if_false]
      exact ih (i + 1) _

theorem runFrom_pve_inv (c : Collab) (n : ℤ) (beta : ℚ) (g : Vol)
    (ab sv : Bool) (tol : ℚ)
    (hpi : ∀ v m mu ss pl, (c.prob_image v m mu ss pl).length = m.toNat) :
    ∀ fuel i s, (∀ p, s.pve = some p → p.length = n.toNat) →
      ∀ p, (runFrom c n beta g ab sv tol fuel i s).pve = some p →
        p.length = n.toNat := by
  intro fuel
  induction fuel with
  | zero => intro i s hs; simpa [runFrom_zero] using hs
  | succ k ih =>
    intro i s hs
    rw [runFrom_succ]
    by_cases hb : breakAfter ab tol i (loopBody c n beta g ab sv s).1.energy_sum
    · simp only [hb, if_true]
      intro p hp
      rw [loopBody_pve, Option.some.injEq] at hp
      subst hp
      exact hpi _ _ _ _ _
    · refine fun p hp => ih (i + 1) (handoff (loopBody c n beta g ab sv s)) ?_ p
        (by simpa [hb] using hp)
      intro q hq
      rw [handoff_pve, loopBody_pve, Option.some.injEq] at hq
      subst hq
      exact hpi _ _ _ _ _

theorem runFrom_energy_false (c : Collab) (n : ℤ) (beta : ℚ) (g : Vol)
    (sv : Bool) (tol : ℚ) :
    ∀ fuel i s,
      (runFrom c n beta g false sv tol fuel i s).energy_sum = s.energy_sum := by
  intro fuel
  induction fuel with
  | zero => intro i s; rw [runFrom_zero]
  | succ k ih =>
    intro i s
    rw [runFrom_succ, breakAfter_false]
    simp only [Bool.false_eq_true, if_false]
    rw [ih, handoff_energy_sum, loopBody_energy_sum]
    simp

theorem runFrom_energy_true (c : Collab) (n : ℤ) (beta : ℚ) (g : Vol)
    (sv : Bool) (tol : ℚ) (seed : ℚ) :
    ∀ fuel i s, s.energy_sum = seed :: s.energyTrace.map finiteSum →
      (runFrom c n beta g true sv tol fuel i s).energy_sum =
        seed :: (runFrom c n beta g true sv tol fuel i s).energyTrace.map finiteSum := by
  intro fuel
  induction fuel with
  | zero => intro i s hs; rw [runFrom_zero]; exact hs
  | succ k ih =>
    intro i s hs
    have hstep : (loopBody c n beta g true sv s).1.energy_sum =
        seed :: (loopBody c n beta g true sv s).1.energyTrace.map finiteSum := by
      rw [loopBody_energy_sum, loopBody_energyTrace]
      simp [hs]
    rw [runFrom_succ]
    by_cases hb : breakAfter true tol i (loopBody c n beta g true sv s).1.energy_sum
    · simp only [hb, if_true]
      exact hstep
    · simp only [hb, Bool.false_eq_true, if_false]
      exact ih (i + 1) _ (by rw [handoff_energy_sum, handoff_energyTrace]; exact hstep)

theorem runFrom_trace_iters (c : Collab) (n : ℤ) (beta : ℚ) (g : Vol)
    (ab sv : Bool) (tol : ℚ) :
    ∀ fuel i s, s.energyTrace.length = s.iters →
      (runFrom c n beta g ab sv tol fuel i s).energyTrace.length =
        (runFrom c n beta g ab sv tol fuel i s).iters := by
  intro fuel
  induction fuel with
  | zero => intro i s hs; rw [runFrom_zero]; exact hs
  | succ k ih =>
    intro i s hs
    have hstep : (loopBody c n beta g ab sv s).1.energyTrace.length =
        (loopBody c n beta g ab sv s).1.iters := by
      rw [loopBody_energyTrace, loopBody_iters]
      simp [hs]
    rw [runFrom_succ]
    by_cases hb : breakAfter ab tol i (loopBody c n beta g ab sv s).1.energy_sum
    · simp only [hb, if_true]
      exact hstep
    · simp only [hb, Bool.false_eq_true, if_false]
      exact ih (i + 1) _ (by rw [handoff_energyTrace, handoff_iters]; exact hstep)

theorem runFrom_muUses_len (c : Collab) (n : ℤ) (beta : ℚ) (g : Vol)
    (ab sv : Bool) (tol : ℚ) :
    ∀ fuel i s, s.muUses.length = 1 + 2 * s.iters →
      (runFrom c n beta g ab sv tol fuel i s).muUses.length =
        1 + 2 * (runFrom c n beta g ab sv tol fuel i s).iters := by
  intro fuel
  induction fuel with
  | zero => intro i s hs; rw [runFrom_zero]; exact hs
  | succ k ih =>
    intro i s hs
    have hstep : (loopBody c n beta g ab sv s).1.muUses.length =
        1 + 2 * (loopBody c n beta g ab sv s).1.iters := by
      rw [loopBody_muUses, loopBody_iters]
      simp [hs]
      omega
    rw [runFrom_succ]
    by_cases hb : breakAfter ab tol i (loopBody c n beta g ab sv s).1.energy_sum
    · simp only [hb, if_true]
      exact hstep
    · simp only [hb, Bool.false_eq_true, if_false]
      exact ih (i + 1) _ (by rw [handoff_muUses, handoff_iters]; exact hstep)

theorem runFrom_newSegs_false (c : Collab) (n : ℤ) (beta : ℚ) (g : Vol)
    (ab : Bool) (tol : ℚ) :
    ∀ fuel i s,
      (runFrom c n beta g ab false tol fuel i s).newSegs = s.newSegs ∧
      (runFrom c n beta g ab false tol fuel i s).newPves = s.newPves ∧
      (runFrom c n beta g ab false tol fuel i s).newEnergies = s.newEnergies ∧
      (runFrom c n beta g ab false tol fuel i s).newEnergiesSum = s.newEnergiesSum := by
  intro fuel
  induction fuel with
  | zero => intro i s; rw [runFrom_zero]; exact ⟨rfl, rfl, rfl, rfl⟩
  | succ k ih =>
    intro i s
    rw [runFrom_succ]
    by_cases hb : breakAfter ab tol i (loopBody c n beta g ab false s).1.energy_sum
    · simp only [hb, if_true]
      rw [loopBody_newSegs, loopBody_newPves, loopBody_newEnergies,
        loopBody_newEnergiesSum]
      exact ⟨rfl, rfl, rfl, rfl⟩
    · simp only [hb, Bool.false_eq_true, if_false]
      rcases ih (i + 1) (handoff (loopBody c n beta g ab false s)) with ⟨h1, h2, h3, h4⟩
      rw [h1, h2, h3, h4, handoff_newSegs, handoff_newPves, handoff_newEnergies,
        handoff_newEnergiesSum, loopBody_newSegs, loopBody_newPves,
        loopBody_newEnergies, loopBody_newEnergiesSum]
      exact ⟨rfl, rfl, rfl, rfl⟩

theorem runFrom_newSegs_true (c : Collab) (n : ℤ) (beta : ℚ) (g : Vol)
    (ab : Bool) (tol : ℚ) :
    ∀ fuel i s, s.newSegs.length = s.iters →
      (runFrom c n beta g ab true tol fuel i s).newSegs.length =
        (runFrom c n beta g ab true tol fuel i s).iters := by
  intro fuel
  induction fuel with
  | zero => intro i s hs; rw [runFrom_zero]; exact hs
  | succ k ih =>
    intro i s hs
    have hstep : (loopBody c n beta g ab true s).1.newSegs.length =
        (loopBody c n beta g ab true s).1.iters := by
      rw [loopBody_newSegs, loopBody_iters]
      simp [hs]
    rw [runFrom_succ]
    by_cases hb : breakAfter ab tol i (loopBody c n beta g ab true s).1.energy_sum
    · simp only [hb, if_true]
      exact hstep
    · simp only [hb, Bool.false_eq_true, if_false]
      exact ih (i + 1) _ (by rw [handoff_newSegs, handoff_iters]; exact hstep)

theorem sortPair_sorted (mu s : List ℚ) :
    List.Sorted (· ≤ ·) (sortPair mu s).1 := by
  have h : List.Sorted muLe ((mu.zip s).insertionSort muLe) :=
    List.sorted_insertionSort muLe _
  have : List.Pairwise (· ≤ ·)
      (((mu.zip s).insertionSort muLe).map Prod.fst) := by
    rw [List.pairwise_map]
    exact h
  simpa [sortPair, List.Sorted] using this

theorem step_muUses_sorted (c : Collab) (n : ℤ) (beta : ℚ) (g : Vol)
    (ab sv : Bool) (s : LoopState)
    (hu : ∀ j, j ≠ 1 → List.Sorted (· ≤ ·) ((s.muUses.getD j ([], [])).1))
    (hmu : List.Sorted (· ≤ ·) s.mu ∨ s.muUses.length = 1) :
    ∀ j, j ≠ 1 →
      List.Sorted (· ≤ ·)
        (((loopBody c n beta g ab sv s).1.muUses.getD j ([], [])).1) := by
  intro j hj
  rw [loopBody_muUses]
  rcases lt_or_ge j s.muUses.length with hlt | hge
  · rw [List.getD_append _ _ _ _ hlt]
    exact hu j hj
  · rw [List.getD_append_right _ _ _ _ hge]
    rcases Nat.lt_or_ge j (s.muUses.length + 1) with h1 | h1
    · have hz : j - s.muUses.length = 0 := by omega
      rw [hz]
      rcases hmu with h | h
      · exact h
      · exact absurd (by omega : j = 1) hj
    · rcases Nat.lt_or_ge j (s.muUses.length + 2) with h2 | h2
      · have ho : j - s.muUses.length = 1 := by omega
        rw [ho]
        exact sortPair_sorted _ _
      · have hd : ([(s.mu, s.sigmasq),
            ((bodyUpdS c n beta g s).1, (bodyUpdS c n beta g s).2)] :
              List (Vol × Vol)).length ≤ j - s.muUses.length := by
          simp
          omega
        rw [List.getD_eq_default _ _ hd]
        exact List.sorted_nil

theorem runFrom_muUses_sorted (c : Collab) (n : ℤ) (beta : ℚ) (g : Vol)
    (ab sv : Bool) (tol : ℚ) :
    ∀ fuel i s,
      (∀ j, j ≠ 1 → List.Sorted (· ≤ ·) ((s.muUses.getD j ([], [])).1)) →
      (List.Sorted (· ≤ ·) s.mu ∨ s.muUses.length = 1) →
      ∀ j, j ≠ 1 →
        List.Sorted (· ≤ ·)
          (((runFrom c n beta g ab sv tol fuel i s).muUses.getD j ([], [])).1) := by
  intro fuel
  induction fuel with
  | zero => intro i s hu _ j hj; rw [runFrom_zero]; exact hu j hj
  | succ k ih =>
    intro i s hu hmu j hj
    rw [runFrom_succ]
    by_cases hb : breakAfter ab tol i (loopBody c n beta g ab sv s).1.energy_sum
    · simp only [hb, if_true]
      exact step_muUses_sorted c n beta g ab sv s hu hmu j hj
    · simp only [hb, Bool.false_eq_true, if_false]
      refine ih (i + 1) (handoff (loopBody c n beta g ab sv s)) ?_ ?_ j hj
      · intro j2 hj2
        rw [handoff_muUses]
        exact step_muUses_sorted c n beta g ab sv s hu hmu j2 hj2
      · left
        rw [handoff_mu, loopBody_snd]
        exact sortPair_sorted _ _

/-! ## Helper lemmas about `classify` -/

theorem classify_loopState (c : Collab) (self : HMRF) (image : Vol)
    (nclasses : ℤ) (beta : ℚ) (tol : Option ℚ) (mi : Option ℤ) :
    (classify c self image nclasses beta tol mi).loopState =
      runFrom c (nclasses + 1) beta (imageGaussOf c (rescaled image))
        (allow_break tol mi) self.save_history (effTolerance tol)
        (effMaxIter mi).toNat 0 (startState c (rescaled image) (nclasses + 1)) := rfl

theorem classify_ok_def (c : Collab) (self : HMRF) (image : Vol)
    (nclasses : ℤ) (beta : ℚ) (tol : Option ℚ) (mi : Option ℤ) :
    (classify c self image nclasses beta tol mi).ok =
      match (classify c self image nclasses beta tol mi).loopState.pve with
      | none => none
      | some p =>
          some (initialSeg c (rescaled image) (nclasses + 1),
            (classify c self image nclasses beta tol mi).loopState.final_segmentation,
            p.drop 1) := rfl

theorem classify_pve_isSome (c : Collab) (self : HMRF) (image : Vol)
    (nclasses : ℤ) (beta : ℚ) (tol : Option ℚ) (mi : Option ℤ) :
    (classify c self image nclasses beta tol mi).loopState.pve.isSome = true ↔
      1 ≤ effMaxIter mi := by
  rw [classify_loopState]
  constructor
  · intro h
    by_contra hn
    have h0 : (effMaxIter mi).toNat = 0 := by omega
    rw [h0, runFrom_zero] at h
    simp [startState] at h
  · intro h
    obtain ⟨k, hk⟩ : ∃ k, (effMaxIter mi).toNat = k + 1 :=
      ⟨(effMaxIter mi).toNat - 1, by omega⟩
    rw [hk]
    exact runFrom_pve_succ c (nclasses + 1) beta (imageGaussOf c (rescaled image))
      (allow_break tol mi) self.save_history (effTolerance tol) k 0
      (startState c (rescaled image) (nclasses + 1))

theorem classify_ok_isSome (c : Collab) (self : HMRF) (image : Vol)
    (nclasses : ℤ) (beta : ℚ) (tol : Option ℚ) (mi : Option ℤ) :
    (classify c self image nclasses beta tol mi).ok.isSome = true ↔
      1 ≤ effMaxIter mi := by
  have h := classify_pve_isSome c self image nclasses beta tol mi
  rw [classify_ok_def]
  rcases hp : (classify c self image nclasses beta tol mi).loopState.pve with _ | p
  · rw [hp] at h
    simp only [Option.isSome_none, Bool.false_eq_true, false_iff] at h
    simp [h]
  · rw [hp] at h
    simp only [Option.isSome_some, true_iff] at h
    simp [h]

theorem classify_ok_fst (c : Collab) (self : HMRF) (image : Vol)
    (nclasses : ℤ) (beta : ℚ) (tol : Option ℚ) (mi : Option ℤ) :
    (classify c self image nclasses beta tol mi).ok.map (fun t => t.1) =
      if 1 ≤ effMaxIter mi then
        some (initialSeg c (rescaled image) (nclasses + 1))
      else none := by
  have h := classify_pve_isSome c self image nclasses beta tol mi
  rw [classify_ok_def]
  rcases hp : (classify c self image nclasses beta tol mi).loopState.pve with _ | p
  · rw [hp] at h
    simp only [Option.isSome_none, Bool.false_eq_true, false_iff] at h
    rw [if_neg h]
    rfl
  · rw [hp] at h
    simp only [Option.isSome_some, true_iff] at h
    rw [if_pos h]
    rfl

theorem breakAfter_eq_spec (tol : ℚ) (i : ℕ) (hist : List ℚ)
    (hlen : hist.length = i + 2) :
    (breakAfter true tol i hist = true ↔
      (i % 10 = 0 ∧ i ≠ 0 ∧ specConvergenceBreak tol i hist = true)) := by
  by_cases hg : i % 10 = 0 ∧ i ≠ 0
  · obtain ⟨h10, hne⟩ := hg
    have hge : 10 ≤ i := by omega
    have hslice : pySlice hist ((hist.length : ℤ) - 5) (i : ℤ) =
        (hist.take i).drop (hist.length - 5) := by
      unfold pySlice pyIdx
      rw [hlen]
      have c1 : ¬(((i + 2 : ℕ) : ℤ) - 5 < 0) := by push_cast; omega
      have c2 : ¬((i : ℤ) < 0) := by omega
      rw [if_neg c1, if_neg c2]
      have e1 : (((i + 2 : ℕ) : ℤ) - 5).toNat = i - 3 := by push_cast; omega
      have e2 : (i : ℤ).toNat = i := by omega
      rw [e1, e2]
      rw [min_eq_left (by omega : i ≤ i + 2),
        min_eq_left (by omega : i - 3 ≤ i + 2)]
      have e3 : i + 2 - 5 = i - 3 := by omega
      rw [e3]
    simp only [breakAfter, specConvergenceBreak, hslice]
    simp [h10, hne]
  · have hguard : ((i % 10 == 0) && (i != 0)) = false := by
      by_cases h0 : i = 0
      · simp [h0]
      · have : ¬(i % 10 = 0) := fun hmod => hg ⟨hmod, h0⟩
        simp [this]
    constructor
    · intro h
      exfalso
      rw [breakAfter] at h
      rw [hguard] at h
      simp at h
    · rintro ⟨h1, h2, _⟩
      exact absurd ⟨h1, h2⟩ hg

theorem foldl_max_sub (c : ℚ) :
    ∀ (xs : List ℚ) (a : ℚ),
      List.foldl max (a - c) (xs.map (fun x => x - c)) = List.foldl max a xs - c := by
  intro xs
  induction xs with
  | nil => intro a; rfl
  | cons x xs ih =>
    intro a
    simp only [List.map_cons, List.foldl_cons]
    rw [max_sub_sub_right a x c]
    exact ih (max a x)

theorem amax_map_sub (image : Vol) (h : image ≠ []) (m : ℚ) :
    amax (image.map (fun x => x - m)) = amax image - m := by
  cases image with
  | nil => exact absurd rfl h
  | cons x xs =>
    simp only [List.map_cons, amax]
    exact foldl_max_sub m xs x

theorem whereZero_getD :
    ∀ (w z : Vol) (k : ℕ), k < w.length → k < z.length →
      ((w.zip z).map (fun xz => if xz.1 = 0 then xz.2 else xz.1)).getD k 0 =
        if w.getD k 0 = 0 then z.getD k 0 else w.getD k 0 := by
  intro w
  induction w with
  | nil => intro z k h _; simp at h
  | cons x xs ih =>
    intro z k h1 h2
    cases z with
    | nil => simp at h2
    | cons y ys =>
      cases k with
      | zero => rfl
      | succ k =>
        simpa using ih ys k (by simpa using h1) (by simpa using h2)

/-- A loop state used to exercise the convergence check at iteration 10:
the seed followed by ten identical appended energy sums. -/
def probeState : LoopState :=
  { seg_init := []
    mu := [0]
    sigmasq := [0]
    final_segmentation := []
    energy_sum := [1 / 100000, 1, 1, 1, 1, 1, 1, 1, 1, 1, 1]
    pve := none
    newSegs := []
    newPves := []
    newEnergies := []
    newEnergiesSum := []
    iters := 10
    muUses := []
    energyTrace := List.replicate 10 [EnergyVal.fin 1] }

/-! ## Claim theorems -/

/-- Claim C1: every call of `classify` that returns yields the triple
`(initial_segmentation, final_segmentation, partial_volume_map)`, where the
initial segmentation is the pre-loop pure maximum-likelihood segmentation
and the partial-volume map is the last iteration's posterior map with the
class-index-0 (background) channel dropped, leaving exactly
`(nclasses + 1) - 1 = nclasses` channels. -/
theorem claim_C1_output_triple (c : Collab) (self : HMRF) (image : Vol)
    (nclasses : ℤ) (beta : ℚ) (tol : Option ℚ) (mi : Option ℤ)
    (hpi : ∀ v m mu ss pl, (c.prob_image v m mu ss pl).length = m.toNat)
    (hmi : 1 ≤ effMaxIter mi) (hn : 0 ≤ nclasses) :
    ∃ p : PVEmap,
      (classify c self image nclasses beta tol mi).loopState.pve = some p ∧
      p.length = (nclasses + 1).toNat ∧
      (classify c self image nclasses beta tol mi).ok =
        some (initialSeg c (rescaled image) (nclasses + 1),
          (classify c self image nclasses beta tol mi).loopState.final_segmentation,
          p.drop 1) ∧
      (p.drop 1).length = nclasses.toNat := by
  have hsome := (classify_pve_isSome c self image nclasses beta tol mi).mpr hmi
  rcases hp : (classify c self image nclasses beta tol mi).loopState.pve with _ | p
  · rw [hp] at hsome
    simp at hsome
  · have hrun : (runFrom c (nclasses + 1) beta (imageGaussOf c (rescaled image))
        (allow_break tol mi) self.save_history (effTolerance tol)
        (effMaxIter mi).toNat 0
        (startState c (rescaled image) (nclasses + 1))).pve = some p := by
      rw [← classify_loopState]
      exact hp
    have hlen := runFrom_pve_inv c (nclasses + 1) beta
      (imageGaussOf c (rescaled image)) (allow_break tol mi) self.save_history
      (effTolerance tol) hpi (effMaxIter mi).toNat 0
      (startState c (rescaled image) (nclasses + 1))
      (fun q hq => by simp [startState] at hq) p hrun
    refine ⟨p, rfl, hlen, ?_, ?_⟩
    · simp only [classify_ok_def, hp]
    · rw [List.length_drop, hlen]
      omega

/-- Claim C1 witness: a concrete call with `nclasses = 1` and
`max_iter = 2` returns a partial-volume map with exactly one channel. -/
theorem claim_C1_output_triple_witness :
    ∃ p : PVEmap,
      (classify trivCollab (HMRF.init false false)
        [1/2] 1 0 none (some 2)).loopState.pve = some p ∧
      p.length = ((1 : ℤ) + 1).toNat ∧
      (classify trivCollab (HMRF.init false false) [1/2] 1 0 none (some 2)).ok =
        some (initialSeg trivCollab (rescaled [1/2]) ((1 : ℤ) + 1),
          (classify trivCollab (HMRF.init false false)
            [1/2] 1 0 none (some 2)).loopState.final_segmentation,
          p.drop 1) ∧
      (p.drop 1).length = (1 : ℤ).toNat :=
  claim_C1_output_triple trivCollab (HMRF.init false false) [1/2] 1 0 none (some 2)
    (fun v m mu ss pl => by simp [trivCollab]) (by decide) (by decide)

/-- Claim C2: early stopping is disabled iff `max_iter` is supplied and
`tolerance` is not; in that case the loop runs exactly `max_iter`
iterations; in every other combination early stopping is enabled, with
`tolerance` defaulting to `1e-05` and `max_iter` defaulting to `100` when
absent. -/
theorem claim_C2_early_stop_policy (c : Collab) (self : HMRF) (image : Vol)
    (nclasses : ℤ) (beta : ℚ) (tol : Option ℚ) (mi : Option ℤ) :
    (allow_break tol mi = false ↔ mi.isSome = true ∧ tol = none) ∧
    (allow_break tol mi = false →
      (classify c self image nclasses beta tol mi).loopState.iters =
        (effMaxIter mi).toNat) ∧
    effMaxIter none = 100 ∧ effTolerance none = 1 / 100000 := by
  refine ⟨?_, ?_, rfl, rfl⟩
  · cases mi <;> cases tol <;> simp [allow_break]
  · intro h
    rw [classify_loopState, h, runFrom_iters_false]
    simp [startState]

/-- Claim C2 witness: with `tolerance` absent and `max_iter = 5` the loop
runs exactly 5 iterations. -/
theorem claim_C2_early_stop_policy_witness :
    (classify trivCollab (HMRF.init false false)
      [1/2] 1 0 none (some 5)).loopState.iters = 5 := by
  rw [(claim_C2_early_stop_policy trivCollab (HMRF.init false false)
    [1/2] 1 0 none (some 5)).2.1 (by decide)]
  decide

/-- Claim C3: with early stopping enabled, the convergence test is evaluated
exactly at iterations `i` with `i % 10 == 0` and `i ≠ 0`; on the
post-append history it computes `tol = tolerance * (max - min)` over the
entire history (seed included), takes the positional window
`history[len(history) - 5 : i]`, and breaks iff
`|max(window) - min(window)| < tol`. -/
theorem claim_C3_convergence_test (c : Collab) (n : ℤ) (beta : ℚ) (g : Vol)
    (sv : Bool) (tol : ℚ) (i : ℕ) (s : LoopState)
    (hlen : s.energy_sum.length = i + 1) :
    (breakAfter true tol i (loopBody c n beta g true sv s).1.energy_sum = true ↔
      (i % 10 = 0 ∧ i ≠ 0 ∧
        specConvergenceBreak tol i
          (loopBody c n beta g true sv s).1.energy_sum = true)) := by
  apply breakAfter_eq_spec
  rw [loopBody_energy_sum]
  simp [hlen]

/-- Claim C3 witness: at iteration 10 on an 11-entry history the test fires
and, with a flat window, the loop breaks. -/
theorem claim_C3_convergence_test_witness :
    breakAfter true (1/2) 10
      (loopBody trivCollab 2 0 [] true false probeState).1.energy_sum = true := by
  refine (claim_C3_convergence_test trivCollab 2 0 [] false (1/2) 10 probeState
    (by decide)).mpr ⟨by norm_num, by norm_num, ?_⟩
  have hicm : (bodyIcm trivCollab 2 0 [] probeState).2 = [EnergyVal.fin 1] := rfl
  have hfs : finiteSum [EnergyVal.fin 1] = 1 := by
    simp [finiteSum, EnergyVal.isFinite, EnergyVal.val]
  have he : (loopBody trivCollab 2 0 [] true false probeState).1.energy_sum =
      [1/100000, 1, 1, 1, 1, 1, 1, 1, 1, 1, 1, 1] := by
    rw [loopBody_energy_sum, if_pos rfl, hicm, hfs]
    rfl
  rw [he]
  simp only [specConvergenceBreak, List.take, List.drop, List.length_cons,
    List.length_nil, decide_eq_true_eq]
  norm_num [amax, amin, max_def, min_def]

/-- Claim C4 counterexample: the call with `nclasses = 0 < 1`,
`beta = -1 < 0` and supplied non-positive `tolerance = -1` is not rejected
at entry: it performs the full classification loop (3 iterations) and
returns a result. -/
theorem claim_C4_counterexample :
    ((classify trivCollab (HMRF.init false false)
      [2] 0 (-1) (some (-1)) (some 3)).ok.isSome = true) ∧
    (classify trivCollab (HMRF.init false false)
      [2] 0 (-1) (some (-1)) (some 3)).loopState.iters = 3 := by
  exact ⟨by decide, by decide⟩

/-- Claim C4 (amended): `classify` performs no parameter validation at
entry; a call fails (unbound `PVE` at the channel-drop step) exactly when
the effective `max_iter` is below 1, and every call — invalid parameters
included — performs the pre-loop estimation work (the ghost trace of
likelihood/posterior parameter uses always contains the pre-loop entry). -/
theorem claim_C4_no_entry_validation (c : Collab) (self : HMRF) (image : Vol)
    (nclasses : ℤ) (beta : ℚ) (tol : Option ℚ) (mi : Option ℤ) :
    ((classify c self image nclasses beta tol mi).ok.isSome = true ↔
      1 ≤ effMaxIter mi) ∧
    (classify c self image nclasses beta tol mi).loopState.muUses.length =
      1 + 2 * (classify c self image nclasses beta tol mi).loopState.iters := by
  refine ⟨classify_ok_isSome c self image nclasses beta tol mi, ?_⟩
  rw [classify_loopState]
  exact runFrom_muUses_len c (nclasses + 1) beta (imageGaussOf c (rescaled image))
    (allow_break tol mi) self.save_history (effTolerance tol)
    (effMaxIter mi).toNat 0 (startState c (rescaled image) (nclasses + 1)) rfl

/-- Claim C4 (amended) witness: with `max_iter = 0` supplied the call fails,
but the pre-loop work was still performed (one recorded parameter use). -/
theorem claim_C4_no_entry_validation_witness :
    ¬((classify trivCollab (HMRF.init false false)
      [1/2] 1 0 none (some 0)).ok.isSome = true) ∧
    (classify trivCollab (HMRF.init false false)
      [1/2] 1 0 none (some 0)).loopState.muUses.length = 1 := by
  have h := claim_C4_no_entry_validation trivCollab (HMRF.init false false)
    [1/2] 1 0 none (some 0)
  constructor
  · intro hx
    exact absurd (h.1.mp hx) (by decide)
  · rw [h.2]
    decide

theorem runFrom_one_muUses (c : Collab) (n : ℤ) (beta : ℚ) (g : Vol)
    (ab sv : Bool) (tol : ℚ) (i : ℕ) (s : LoopState) :
    (runFrom c n beta g ab sv tol 1 i s).muUses =
      (loopBody c n beta g ab sv s).1.muUses := by
  rw [runFrom_succ]
  by_cases hb : breakAfter ab tol i (loopBody c n beta g ab sv s).1.energy_sum
  · simp [hb]
  · simp only [hb, Bool.false_eq_true, if_false]
    rw [runFrom_zero, handoff_muUses]

/-- Claim C5 counterexample: with the spec-modelled per-class-mean
`seg_stats` and per-voxel-argmin initial labelling, on the volume
`[0, 9/10, 2/5]` the class means produced at tissue.py lines 83–84 are
`[9/20, 2/5]`, and the driver hands exactly this unsorted pair to the first
iteration's posterior computation (recorded use index 1), so `mu` is not
sorted ascending at that use. -/
theorem claim_C5_counterexample :
    (((classify gaussCollab (HMRF.init false false)
        [0, 9/10, 2/5] 1 0 none (some 1)).loopState.muUses.getD 1 ([], [])).1 =
      [9/20, 2/5]) ∧
    ¬ List.Sorted (· ≤ ·)
      (((classify gaussCollab (HMRF.init false false)
        [0, 9/10, 2/5] 1 0 none (some 1)).loopState.muUses.getD 1 ([], [])).1) := by
  have hre : rescaled [0, 9/10, 2/5] = [0, 9/10, 2/5] := by
    rw [rescaled, if_neg]
    rw [amax]
    norm_num [max_def]
  have hmu : (((classify gaussCollab (HMRF.init false false)
      [0, 9/10, 2/5] 1 0 none (some 1)).loopState.muUses.getD 1 ([], [])).1 =
        (statsPair gaussCollab (rescaled [0, 9/10, 2/5]) 2).1) := by
    rw [classify_loopState]
    rw [show (effMaxIter (some 1)).toNat = 1 from rfl]
    rw [runFrom_one_muUses, loopBody_muUses]
    rfl
  have hseg : initialSeg gaussCollab [0, 9/10, 2/5] 2 = [0, 0, 1] := by decide
  have hstats : (statsPair gaussCollab (rescaled [0, 9/10, 2/5]) 2).1 = [9/20, 2/5] := by
    rw [hre]
    show segStatsMeans [0, 9/10, 2/5] (initialSeg gaussCollab [0, 9/10, 2/5] 2) 2 =
      [9/20, 2/5]
    rw [hseg]
    rw [show segStatsMeans [0, 9/10, 2/5] [0, 0, 1] 2 =
      [([(0 : ℚ), 9/10].sum) / (([(0 : ℚ), 9/10].length : ℚ)),
       ([(2/5 : ℚ)].sum) / (([(2/5 : ℚ)].length : ℚ))] from rfl]
    norm_num [List.sum_cons, List.sum_nil]
  rw [hmu, hstats]
  refine ⟨rfl, ?_⟩
  simp [List.Sorted]
  norm_num

/-- Claim C5 (amended): the `(mu, sigmasq)` pair is sorted ascending by `mu`
at the pre-loop likelihood use and at every in-loop use that follows an
`update_param` re-estimation (which the driver re-sorts); the single
exception is the `seg_stats` re-estimation of lines 83–84, whose result the
driver passes unsorted to the first iteration's posterior computation
(recorded use index 1). -/
theorem claim_C5_mu_sorted_other_uses (c : Collab) (self : HMRF) (image : Vol)
    (nclasses : ℤ) (beta : ℚ) (tol : Option ℚ) (mi : Option ℤ) :
    ∀ j, j ≠ 1 →
      List.Sorted (· ≤ ·)
        (((classify c self image nclasses beta tol mi).loopState.muUses.getD j
          ([], [])).1) := by
  intro j hj
  rw [classify_loopState]
  refine runFrom_muUses_sorted c (nclasses + 1) beta
    (imageGaussOf c (rescaled image)) (allow_break tol mi) self.save_history
    (effTolerance tol) (effMaxIter mi).toNat 0
    (startState c (rescaled image) (nclasses + 1)) ?_ ?_ j hj
  · intro j2 hj2
    cases j2 with
    | zero => exact sortPair_sorted _ _
    | succ m => exact List.sorted_nil
  · right
    rfl

/-- Claim C5 (amended) witness: at recorded use index 2 (the first
iteration's in-loop likelihood call) the `mu` array is sorted. -/
theorem claim_C5_mu_sorted_other_uses_witness :
    List.Sorted (· ≤ ·)
      (((classify gaussCollab (HMRF.init false false)
        [0, 9/10, 2/5] 1 0 none (some 1)).loopState.muUses.getD 2 ([], [])).1) :=
  claim_C5_mu_sorted_other_uses gaussCollab (HMRF.init false false)
    [0, 9/10, 2/5] 1 0 none (some 1) 2 (by decide)

/-- Claim C6: the convergence history starts as the one-element sequence
`[1e-05]`; exactly when early stopping is enabled, one scalar — the sum of
the finite entries of that iteration's energy map, `-infinity` entries
excluded — is appended per executed loop iteration; when early stopping is
disabled nothing is ever appended. -/
theorem claim_C6_convergence_history (c : Collab) (self : HMRF) (image : Vol)
    (nclasses : ℤ) (beta : ℚ) (tol : Option ℚ) (mi : Option ℤ) :
    ((classify c self image nclasses beta tol mi).loopState.energy_sum =
      if allow_break tol mi then
        (1 / 100000 : ℚ) ::
          ((classify c self image nclasses beta tol mi).loopState.energyTrace.map
            finiteSum)
      else [1 / 100000]) ∧
    (classify c self image nclasses beta tol mi).loopState.energyTrace.length =
      (classify c self image nclasses beta tol mi).loopState.iters ∧
    ∀ l : List EnergyVal,
      finiteSum l =
        ((l.filter (fun e => e != EnergyVal.negInf)).map EnergyVal.val).sum := by
  refine ⟨?_, ?_, ?_⟩
  · rw [classify_loopState]
    cases hab : allow_break tol mi
    · simp only [Bool.false_eq_true, if_false]
      rw [runFrom_energy_false]
      rfl
    · simp only [if_true]
      exact runFrom_energy_true c (nclasses + 1) beta
        (imageGaussOf c (rescaled image)) self.save_history (effTolerance tol)
        (1 / 100000) (effMaxIter mi).toNat 0
        (startState c (rescaled image) (nclasses + 1)) rfl
  · rw [classify_loopState]
    exact runFrom_trace_iters c (nclasses + 1) beta
      (imageGaussOf c (rescaled image)) (allow_break tol mi) self.save_history
      (effTolerance tol) (effMaxIter mi).toNat 0
      (startState c (rescaled image) (nclasses + 1)) rfl
  · intro l
    rw [finiteSum, List.filter_congr]
    intro a _
    cases a <;> rfl

/-- Claim C7 counterexample: on the volume `[3, 1]` (maximum exceeds 1) the
driver's preprocessing produces `[1, 0]`, not the `[2/3, 0]` demanded by the
claimed formula `(x - min) / max`: the division is by the maximum of the
shifted volume, i.e. `max - min`. -/
theorem claim_C7_counterexample :
    rescaled [3, 1] = [1, 0] ∧ specRescale [3, 1] = [2/3, 0] ∧
      rescaled [3, 1] ≠ specRescale [3, 1] := by
  have h1 : rescaled [3, 1] = [1, 0] := by
    norm_num [rescaled, amax, amin, max_def, min_def]
  have h2 : specRescale [3, 1] = [2/3, 0] := by
    norm_num [specRescale, amax, amin, max_def, min_def]
  refine ⟨h1, h2, ?_⟩
  rw [h1, h2]
  intro hcontra
  have := List.head_eq_of_cons_eq hcontra
  norm_num at this

/-- Claim C7 (amended): iff the volume's maximum exceeds 1, the working
volume is rescaled to `[0, 1]` by `(x - min) / (max - min)` — the division
is by the maximum of the min-shifted volume — before any classification
step; otherwise the volume is used unchanged. -/
theorem claim_C7_rescale_formula (image : Vol) (h : image ≠ []) :
    rescaled image =
      if 1 < amax image then
        image.map (fun x => (x - amin image) / (amax image - amin image))
      else image := by
  rw [rescaled]
  by_cases h1 : 1 < amax image
  · rw [if_pos h1, if_pos h1]
    show (List.map (fun x => x - amin image) image).map
        (fun x => x / amax (List.map (fun x => x - amin image) image)) =
      List.map (fun x => (x - amin image) / (amax image - amin image)) image
    rw [amax_map_sub image h (amin image), List.map_map]
    rfl
  · rw [if_neg h1, if_neg h1]

/-- Claim C7 (amended) witness: the rescaling equation evaluated on the
two-voxel volume `[3, 1]`. -/
theorem claim_C7_rescale_formula_witness :
    rescaled [3, 1] =
      if 1 < amax [3, 1] then
        ([3, 1] : Vol).map (fun x => (x - amin [3, 1]) / (amax [3, 1] - amin [3, 1]))
      else [3, 1] :=
  claim_C7_rescale_formula [3, 1] (by simp)

/-- Claim C8: zero voxels are substituted with collaborator noise only in
`image_gauss`, the volume consumed inside the loop: pointwise,
`image_gauss[k]` is the noise value where the working volume is exactly 0
and the unchanged intensity elsewhere; the initial segmentation returned to
the caller is computed from the unperturbed working volume — it is invariant
under any replacement of the noise collaborator. -/
theorem claim_C8_noise_isolation (c : Collab) (self : HMRF) (image : Vol)
    (nclasses : ℤ) (beta : ℚ) (tol : Option ℚ) (mi : Option ℤ) :
    (∀ k, k < (rescaled image).length → k < (noiseOf c (rescaled image)).length →
      (imageGaussOf c (rescaled image)).getD k 0 =
        if (rescaled image).getD k 0 = 0 then
          (noiseOf c (rescaled image)).getD k 0
        else (rescaled image).getD k 0) ∧
    (∀ f, (classify { c with add_noise := f } self image nclasses beta tol
        mi).ok.map (fun t => t.1) =
      (classify c self image nclasses beta tol mi).ok.map (fun t => t.1)) ∧
    (1 ≤ effMaxIter mi →
      (classify c self image nclasses beta tol mi).ok.map (fun t => t.1) =
        some (initialSeg c (rescaled image) (nclasses + 1))) := by
  refine ⟨?_, ?_, ?_⟩
  · intro k h1 h2
    exact whereZero_getD (rescaled image) (noiseOf c (rescaled image)) k h1 h2
  · intro f
    rw [classify_ok_fst, classify_ok_fst]
    rfl
  · intro hmi
    rw [classify_ok_fst, if_pos hmi]

/-- Claim C8 witness: on the volume `[0, 2]` (whose rescaled form has an
exact-zero voxel) the pointwise substitution equation holds at index 0, and
the returned initial segmentation is the one computed from the unperturbed
working volume. -/
theorem claim_C8_noise_isolation_witness :
    ((imageGaussOf trivCollab (rescaled [0, 2])).getD 0 0 =
      if (rescaled [0, 2]).getD 0 0 = 0 then
        (noiseOf trivCollab (rescaled [0, 2])).getD 0 0
      else (rescaled [0, 2]).getD 0 0) ∧
    (classify trivCollab (HMRF.init false false)
        [0, 2] 1 0 none (some 1)).ok.map (fun t => t.1) =
      some (initialSeg trivCollab (rescaled [0, 2]) ((1 : ℤ) + 1)) := by
  have h := claim_C8_noise_isolation trivCollab (HMRF.init false false)
    [0, 2] 1 0 none (some 1)
  exact ⟨h.1 0 (by decide) (by decide), h.2.2 (by decide)⟩

/-- Claim C9 counterexample: the history lists are not cleared per
invocation: after two `classify` calls with `save_history` enabled on the
same object, each running one iteration, the object holds two accumulated
segmentation entries, so the second call observes the first call's entry. -/
theorem claim_C9_counterexample :
    ((classify trivCollab
        (classify trivCollab (HMRF.init true false) [1/2] 1 0 none (some 1)).obj
        [1/2] 1 0 none (some 1)).obj.segmentations.length = 2) ∧
    ((classify trivCollab
        (classify trivCollab (HMRF.init true false) [1/2] 1 0 none (some 1)).obj
        [1/2] 1 0 none (some 1)).loopState.iters = 1) := by
  exact ⟨by decide, by decide⟩

/-- Claim C9 (amended): the per-iteration history lists are populated only
when `save_history` is enabled (one entry per executed iteration), but they
are initialised once at construction and accumulate across `classify`
calls: each call appends its entries after whatever the object already
holds. -/
theorem claim_C9_history_accumulation (c : Collab) (self : HMRF) (image : Vol)
    (nclasses : ℤ) (beta : ℚ) (tol : Option ℚ) (mi : Option ℤ) :
    ((classify c self image nclasses beta tol mi).obj.segmentations =
      self.segmentations ++
        (classify c self image nclasses beta tol mi).loopState.newSegs) ∧
    ((classify c self image nclasses beta tol mi).obj.pves =
      self.pves ++ (classify c self image nclasses beta tol mi).loopState.newPves) ∧
    ((classify c self image nclasses beta tol mi).obj.energies =
      self.energies ++
        (classify c self image nclasses beta tol mi).loopState.newEnergies) ∧
    ((classify c self image nclasses beta tol mi).obj.energies_sum =
      self.energies_sum ++
        (classify c self image nclasses beta tol mi).loopState.newEnergiesSum) ∧
    (self.save_history = false →
      (classify c self image nclasses beta tol mi).loopState.newSegs = [] ∧
      (classify c self image nclasses beta tol mi).loopState.newPves = [] ∧
      (classify c self image nclasses beta tol mi).loopState.newEnergies = [] ∧
      (classify c self image nclasses beta tol mi).loopState.newEnergiesSum = []) ∧
    (self.save_history = true →
      (classify c self image nclasses beta tol mi).loopState.newSegs.length =
        (classify c self image nclasses beta tol mi).loopState.iters) := by
  refine ⟨rfl, rfl, rfl, rfl, ?_, ?_⟩
  · intro h
    rw [classify_loopState, h]
    exact runFrom_newSegs_false c (nclasses + 1) beta
      (imageGaussOf c (rescaled image)) (allow_break tol mi) (effTolerance tol)
      (effMaxIter mi).toNat 0 (startState c (rescaled image) (nclasses + 1))
  · intro h
    rw [classify_loopState, h]
    exact runFrom_newSegs_true c (nclasses + 1) beta
      (imageGaussOf c (rescaled image)) (allow_break tol mi) (effTolerance tol)
      (effMaxIter mi).toNat 0 (startState c (rescaled image) (nclasses + 1)) rfl

/-- Claim C9 (amended) witness: with recording disabled no entry is
produced; with recording enabled the call appends one entry per executed
iteration. -/
theorem claim_C9_history_accumulation_witness :
    (classify trivCollab (HMRF.init false false)
      [1/2] 1 0 none (some 1)).loopState.newSegs = [] ∧
    (classify trivCollab (HMRF.init true false)
        [1/2] 1 0 none (some 1)).loopState.newSegs.length =
      (classify trivCollab (HMRF.init true false)
        [1/2] 1 0 none (some 1)).loopState.iters := by
  refine ⟨((claim_C9_history_accumulation trivCollab (HMRF.init false false)
    [1/2] 1 0 none (some 1)).2.2.2.2.1 rfl).1, ?_⟩
  exact (claim_C9_history_accumulation trivCollab (HMRF.init true false)
    [1/2] 1 0 none (some 1)).2.2.2.2.2 rfl

/-- Claim C10 (implicit): the convergence test cannot fire before iteration
index 10, so with early stopping enabled and `max_iter ≤ 10` the loop runs
exactly `max_iter` iterations regardless of tolerance or energies. -/
theorem claim_C10_no_break_before_ten (c : Collab) (self : HMRF) (image : Vol)
    (nclasses : ℤ) (beta : ℚ) (tol : Option ℚ) (mi : Option ℤ)
    (_hab : allow_break tol mi = true) (hmi : effMaxIter mi ≤ 10) :
    (classify c self image nclasses beta tol mi).loopState.iters =
      (effMaxIter mi).toNat := by
  rw [classify_loopState]
  rw [runFrom_iters_le10 c (nclasses + 1) beta (imageGaussOf c (rescaled image))
    (allow_break tol mi) self.save_history (effTolerance tol)
    (effMaxIter mi).toNat 0 (startState c (rescaled image) (nclasses + 1))
    (by omega)]
  simp [startState]

/-- Claim C10 witness: with a supplied tolerance (early stopping enabled)
and `max_iter = 10` the loop runs exactly 10 iterations. -/
theorem claim_C10_no_break_before_ten_witness :
    (classify trivCollab (HMRF.init false false)
      [1/2] 1 0 (some (1/2)) (some 10)).loopState.iters = 10 := by
  rw [claim_C10_no_break_before_ten trivCollab (HMRF.init false false)
    [1/2] 1 0 (some (1/2)) (some 10) (by decide) (by decide)]
  decide

end Cudipy
